import Mathlib

/-!
Verification model of the `jsonman` JSON repair engine.

The TypeScript sources (`src/core/JSONMan.ts`, `src/modules/parser/Parser.ts`)
are embedded shallowly: text is `List Char`, each normalization pass is a pure
function on text returning the rewritten text together with the `FixReport`
it pushes (if any), and JavaScript's `JSON.parse` is modelled by an executable
strict JSON parser `strictParse`.  JavaScript regular-expression passes are
translated into deterministic scanners implementing the same leftmost,
non-overlapping global-replacement semantics (the concrete patterns involved
admit no ambiguous backtracking, as noted at each definition).
-/

namespace Jsonman

/-- Characters matched by the JavaScript `\w` class. -/
def isJsWordChar (c : Char) : Bool :=
  (('a' ≤ c) && (c ≤ 'z')) || (('A' ≤ c) && (c ≤ 'Z')) ||
  (('0' ≤ c) && (c ≤ '9')) || (c = '_')

/-- Characters matched by the JavaScript `\s` class (the ASCII part, which is
all the inputs in this development use). -/
def isJsWs (c : Char) : Bool :=
  (c = ' ') || (c = '\t') || (c = '\n') || (c = '\x0d') ||
  (c = '\x0b') || (c = '\x0c')

/-- JSON whitespace accepted by `JSON.parse` (space, tab, newline, carriage return). -/
def isJsonWs (c : Char) : Bool :=
  (c = ' ') || (c = '\t') || (c = '\n') || (c = '\x0d')

def isDigit (c : Char) : Bool := ('0' ≤ c) && (c ≤ '9')

def isHexDigit (c : Char) : Bool :=
  isDigit c || (('a' ≤ c) && (c ≤ 'f')) || (('A' ≤ c) && (c ≤ 'F'))

/-- Identifier start for unquoted keys: `[a-zA-Z_$]`. -/
def isIdentStart (c : Char) : Bool :=
  (('a' ≤ c) && (c ≤ 'z')) || (('A' ≤ c) && (c ≤ 'Z')) || (c = '_') || (c = '$')

/-- Identifier continuation for unquoted keys: `[a-zA-Z0-9_$]`. -/
def isIdentChar (c : Char) : Bool := isIdentStart c || isDigit c

def singleQuoteChar : Char := Char.ofNat 39

/-- JavaScript `String.prototype.trim` (ASCII whitespace suffices here). -/
def jsTrim (t : List Char) : List Char :=
  ((t.dropWhile isJsWs).reverse.dropWhile isJsWs).reverse

/-- Split a text at newline characters, JavaScript `split('\n')`. -/
def splitNl : List Char → List (List Char)
  | [] => [[]]
  | c :: rest =>
    if c = '\n' then [] :: splitNl rest
    else
      match splitNl rest with
      | l :: ls => (c :: l) :: ls
      | [] => [[c]]

def joinNl (ls : List (List Char)) : List Char := List.intercalate ['\n'] ls

/-- Split a text at space characters, JavaScript `split(' ')` (keeps empties). -/
def splitSpace : List Char → List (List Char)
  | [] => [[]]
  | c :: rest =>
    if c = ' ' then [] :: splitSpace rest
    else
      match splitSpace rest with
      | l :: ls => (c :: l) :: ls
      | [] => [[c]]

/-- Whether `sub` occurs contiguously in `t` (JavaScript `includes`). -/
def containsSub (sub : List Char) : List Char → Bool
  | [] => sub.isEmpty
  | c :: rest => sub.isPrefixOf (c :: rest) || containsSub sub rest

def hexDigitVal (c : Char) : Nat :=
  if isDigit c then c.toNat - '0'.toNat
  else if ('a' ≤ c) && (c ≤ 'f') then c.toNat - 'a'.toNat + 10
  else if ('A' ≤ c) && (c ≤ 'F') then c.toNat - 'A'.toNat + 10
  else 0

def hexToNat (ds : List Char) : Nat := ds.foldl (fun a c => a * 16 + hexDigitVal c) 0

/-- Decimal digit list of a natural number (JavaScript `Number.prototype.toString`). -/
def natToDecimal (n : Nat) : List Char := Nat.toDigits 10 n

/-! ## JSON values and the strict parser (model of `JSON.parse`)

Numbers are kept as a mantissa/decimal-exponent pair exactly as read from the
numeral (no normalization); every numeral in this development is a small
integer, for which this representation coincides with JavaScript's number
value. -/

inductive JVal where
  | jnull : JVal
  | jbool : Bool → JVal
  | jnum : Int → Int → JVal
  | jstr : List Char → JVal
  | jarr : List JVal → JVal
  | jobj : List (List Char × JVal) → JVal

/-- Insert a key/value pair as JavaScript object construction does: a duplicate
key overwrites the earlier value in place, otherwise the pair is appended. -/
def objInsert (k : List Char) (v : JVal) : List (List Char × JVal) → List (List Char × JVal)
  | [] => [(k, v)]
  | (k', v') :: rest =>
    if k' = k then (k, v) :: rest else (k', v') :: objInsert k v rest

def skipJsonWs (t : List Char) : List Char := t.dropWhile isJsonWs

/-- Parse the body of a JSON string literal after the opening quote; returns
the decoded content and the text after the closing quote.  `\uXXXX` escapes
decode via `Char.ofNat` (all inputs in this development are scalar values). -/
def parseJStrBody : Nat → List Char → Option (List Char × List Char)
  | 0, _ => none
  | _ + 1, [] => none
  | n + 1, c :: rest =>
    if c = '"' then some ([], rest)
    else if c = '\\' then
      match rest with
      | [] => none
      | e :: rest2 =>
        if e = '"' || e = '\\' || e = '/' then
          (parseJStrBody n rest2).map (fun p => (e :: p.1, p.2))
        else if e = 'b' then (parseJStrBody n rest2).map (fun p => ('\x08' :: p.1, p.2))
        else if e = 'f' then (parseJStrBody n rest2).map (fun p => ('\x0c' :: p.1, p.2))
        else if e = 'n' then (parseJStrBody n rest2).map (fun p => ('\n' :: p.1, p.2))
        else if e = 'r' then (parseJStrBody n rest2).map (fun p => ('\x0d' :: p.1, p.2))
        else if e = 't' then (parseJStrBody n rest2).map (fun p => ('\t' :: p.1, p.2))
        else if e = 'u' then
          match rest2 with
          | h1 :: h2 :: h3 :: h4 :: rest3 =>
            if isHexDigit h1 && isHexDigit h2 && isHexDigit h3 && isHexDigit h4 then
              (parseJStrBody n rest3).map
                (fun p => (Char.ofNat (hexToNat [h1, h2, h3, h4]) :: p.1, p.2))
            else none
          | _ => none
        else none
    else if c.toNat < 32 then none
    else (parseJStrBody n rest).map (fun p => (c :: p.1, p.2))

/-- Parse a JSON numeral after an optional leading minus has been recorded;
returns `(mantissa, exponent, rest)` per the JSON number grammar. -/
def parseJNumBody (t : List Char) : Option (Nat × Int × List Char) :=
  match t with
  | [] => none
  | c :: _ =>
    if ¬ isDigit c then none
    else
      let intDs := t.takeWhile isDigit
      if intDs.length > 1 && c = '0' then none
      else
        let r1 := t.drop intDs.length
        let (fracDs, r2) :=
          match r1 with
          | '.' :: r1' =>
            (r1'.takeWhile isDigit, r1'.drop (r1'.takeWhile isDigit).length)
          | _ => ([], r1)
        if (r1.head? = some '.') && fracDs.isEmpty then none
        else
          let mant := (intDs ++ fracDs).foldl (fun a d => a * 10 + (d.toNat - '0'.toNat)) 0
          match r2 with
          | e :: r3 =>
            if e = 'e' || e = 'E' then
              let (sgn, r4) :=
                match r3 with
                | '+' :: r3' => ((1 : Int), r3')
                | '-' :: r3' => ((-1 : Int), r3')
                | _ => ((1 : Int), r3)
              let expDs := r4.takeWhile isDigit
              if expDs.isEmpty then none
              else
                let ev : Int := sgn * (expDs.foldl (fun a d => a * 10 + (d.toNat - '0'.toNat)) 0 : Nat)
                some (mant, ev - fracDs.length, r4.drop expDs.length)
            else some (mant, -(fracDs.length : Int), r2)
          | [] => some (mant, -(fracDs.length : Int), r2)

mutual

/-- Parse one JSON value at the head of the text (whitespace already skipped). -/
def parseJVal : Nat → List Char → Option (JVal × List Char)
  | 0, _ => none
  | n + 1, t =>
    match t with
    | [] => none
    | c :: rest =>
      if c = '{' then
        let r := skipJsonWs rest
        match r with
        | '}' :: r2 => some (.jobj [], r2)
        | _ => parseJObjLoop n r []
      else if c = '[' then
        let r := skipJsonWs rest
        match r with
        | ']' :: r2 => some (.jarr [], r2)
        | _ => parseJArrLoop n r []
      else if c = '"' then
        (parseJStrBody (n + 1) rest).map (fun p => (.jstr p.1, p.2))
      else if c = 't' then
        if ['r', 'u', 'e'].isPrefixOf rest then some (.jbool true, rest.drop 3) else none
      else if c = 'f' then
        if ['a', 'l', 's', 'e'].isPrefixOf rest then some (.jbool false, rest.drop 4) else none
      else if c = 'n' then
        if ['u', 'l', 'l'].isPrefixOf rest then some (.jnull, rest.drop 3) else none
      else if c = '-' then
        (parseJNumBody rest).map (fun p => (.jnum (-(p.1 : Int)) p.2.1, p.2.2))
      else if isDigit c then
        (parseJNumBody t).map (fun p => (.jnum (p.1 : Int) p.2.1, p.2.2))
      else none

/-- Parse the members of a JSON object (after `{`, at a key position). -/
def parseJObjLoop : Nat → List Char → List (List Char × JVal) → Option (JVal × List Char)
  | 0, _, _ => none
  | n + 1, t, acc =>
    match t with
    | '"' :: rest =>
      match parseJStrBody (n + 1) rest with
      | none => none
      | some (k, r1) =>
        match skipJsonWs r1 with
        | ':' :: r2 =>
          match parseJVal n (skipJsonWs r2) with
          | none => none
          | some (v, r3) =>
            match skipJsonWs r3 with
            | ',' :: r4 => parseJObjLoop n (skipJsonWs r4) (objInsert k v acc)
            | '}' :: r4 => some (.jobj (objInsert k v acc), r4)
            | _ => none
        | _ => none
    | _ => none

/-- Parse the elements of a JSON array (after `[`, at an element position). -/
def parseJArrLoop : Nat → List Char → List JVal → Option (JVal × List Char)
  | 0, _, _ => none
  | n + 1, t, acc =>
    match parseJVal n t with
    | none => none
    | some (v, r1) =>
      match skipJsonWs r1 with
      | ',' :: r2 => parseJArrLoop n (skipJsonWs r2) (acc ++ [v])
      | ']' :: r2 => some (.jarr (acc ++ [v]), r2)
      | _ => none

end

/-- Model of strict `JSON.parse`: `some v` on success, `none` on a syntax error. -/
def strictParse (t : List Char) : Option JVal :=
  match parseJVal (t.length + 1) (skipJsonWs t) with
  | some (v, rest) => if skipJsonWs rest = [] then some v else none
  | none => none

/-- Whether strict parsing succeeds (`JSONMan.parse(...).success`). -/
def parseOk (t : List Char) : Bool := (strictParse t).isSome

/-! ## Global regular-expression replacement

`String.prototype.replace` with a `/g` regex finds leftmost non-overlapping
matches and continues scanning after each matched span.  A `step` function
attempts a match at the head of the remaining text and returns the
replacement, the text after the matched span, and whether the callback
actually changed the match (always `true` for plain replacements).  Fuel is
the text length; every match consumes at least one character. -/
def scanReplace (step : List Char → Option (List Char × List Char × Bool)) :
    Nat → List Char → List Char × Nat
  | 0, t => (t, 0)
  | _ + 1, [] => ([], 0)
  | n + 1, c :: rest =>
    match step (c :: rest) with
    | some (rep, after, chg) =>
      let p := scanReplace step n after
      (rep ++ p.1, (if chg then 1 else 0) + p.2)
    | none =>
      let p := scanReplace step n rest
      (c :: p.1, p.2)

/-- Run a global replacement; returns the new text and the count of changed matches. -/
def replaceAllC (step : List Char → Option (List Char × List Char × Bool))
    (t : List Char) : List Char × Nat :=
  scanReplace step t.length t

def replaceAll (step : List Char → Option (List Char × List Char × Bool))
    (t : List Char) : List Char :=
  (replaceAllC step t).1

/-- Variant tracking whether the previous character is a word character, for
patterns anchored at a `\b` word boundary.  Both word-boundary patterns used
by the source end their matches in a word character. -/
def scanReplaceW (step : Bool → List Char → Option (List Char × List Char)) :
    Nat → Bool → List Char → List Char × Nat
  | 0, _, t => (t, 0)
  | _ + 1, _, [] => ([], 0)
  | n + 1, pw, c :: rest =>
    match step pw (c :: rest) with
    | some (rep, after) =>
      let p := scanReplaceW step n true after
      (rep ++ p.1, 1 + p.2)
    | none =>
      let p := scanReplaceW step n (isJsWordChar c) rest
      (c :: p.1, p.2)

def replaceAllW (step : Bool → List Char → Option (List Char × List Char))
    (t : List Char) : List Char × Nat :=
  scanReplaceW step t.length false t

/-- Non-global `replace`: rewrite only the leftmost match. -/
def replaceFirst (step : List Char → Option (List Char × List Char)) :
    Nat → List Char → List Char
  | 0, t => t
  | _ + 1, [] => []
  | n + 1, c :: rest =>
    match step (c :: rest) with
    | some (rep, after) => rep ++ after
    | none => c :: replaceFirst step n rest

/-! ## Fix reports and results (`FixReport`, `FixResult` from `core/types.ts`) -/

inductive FixType where
  | quote : FixType
  | comma : FixType
  | bracket : FixType
  | whitespace : FixType
  | other : FixType
deriving DecidableEq

structure JSONParseError where
  message : String
deriving DecidableEq

structure FixReport where
  type : FixType
  description : String
  posStart : Nat
  posEnd : Nat
  original : List Char
  fixed : List Char
deriving DecidableEq

structure FixResult where
  success : Bool
  data : Option (List Char)
  fixes : List FixReport
  error : Option JSONParseError
deriving DecidableEq

/-! ## The normalization passes of `JSONMan.fix`

Each pass mirrors one private static method of `JSONMan` and returns the
rewritten text together with the `FixReport` it pushes, if any. -/

namespace JSONMan

/-- Step 1 of `fix`: drop a leading U+FEFF byte-order mark. -/
def removeBom (t : List Char) : List Char × Option FixReport :=
  match t with
  | c :: rest =>
    if c = Char.ofNat 0xFEFF then
      (rest, some { type := .other, description := "Removed Unicode BOM",
                    posStart := 0, posEnd := 1, original := [c], fixed := [] })
    else (t, none)
  | [] => (t, none)

/-- Skip to just after the first `*/`, the lazy tail of `/\*[\s\S]*?\*\//`. -/
def dropToCloseMl : List Char → Option (List Char)
  | [] => none
  | '*' :: '/' :: rest => some rest
  | _ :: rest => dropToCloseMl rest

/-- One match of the multi-line comment pattern, replaced by a single space. -/
def mlCommentStep (t : List Char) : Option (List Char × List Char × Bool) :=
  match t with
  | '/' :: '*' :: rest => (dropToCloseMl rest).map (fun r => ([' '], r, true))
  | _ => none

/-- The per-line scan of `removeComments`: find a structural `//` (outside a
double-quoted string, escape-aware, stopping at the second-to-last index as
the source loop does) and return the prefix before it. -/
def lineCutGo : List Char → Bool → Bool → List Char → Option (List Char)
  | [], _, _, _ => none
  | [_], _, _, _ => none
  | c :: rest, inStr, esc, acc =>
    if esc then lineCutGo rest inStr false (c :: acc)
    else if c = '\\' then lineCutGo rest inStr true (c :: acc)
    else
      let inStr' := if c = '"' then !inStr else inStr
      if !inStr' && c = '/' && rest.head? = some '/' then some acc.reverse
      else lineCutGo rest inStr' false (c :: acc)

def lineCut (line : List Char) : List Char :=
  match lineCutGo line false false [] with
  | some pre => jsTrim pre
  | none => line

/-- Step 2 of `fix` (`removeComments`): strip `/* ... */` everywhere (the
source regex is not string-aware), then cut `//` line comments per line. -/
def removeComments (t : List Char) : List Char × Option FixReport :=
  let ml := replaceAllC mlCommentStep t
  let r1 := ml.1
  let hasMl := ml.2 > 0
  let cleaned := joinNl ((splitNl r1).map lineCut)
  let hasLine := cleaned ≠ r1
  if hasMl || hasLine then
    (cleaned, some { type := .other, description := "Removed comments",
                     posStart := 0, posEnd := cleaned.length,
                     original := t, fixed := cleaned })
  else (cleaned, none)

def noneChars : List Char := "None".toList
def undefinedChars : List Char := "undefined".toList
def nullUpperChars : List Char := "NULL".toList
def trueUpperChars : List Char := "True".toList
def falseUpperChars : List Char := "False".toList
def nullChars : List Char := "null".toList
def trueChars : List Char := "true".toList
def falseChars : List Char := "false".toList

/-- One `\b<word>\b` match (the word itself consists of word characters). -/
def wordStep (w rep : List Char) (prevWord : Bool) (t : List Char) :
    Option (List Char × List Char) :=
  if !prevWord && w.isPrefixOf t then
    let after := t.drop w.length
    match after.head? with
    | some c => if isJsWordChar c then none else some (rep, after)
    | none => some (rep, after)
  else none

/-- `if (pattern.test(result)) result = result.replace(pattern, replacement)`. -/
def replaceWordIfAny (w rep : List Char) (t : List Char) : List Char × Bool :=
  let p := replaceAllW (wordStep w rep) t
  if p.2 > 0 then (p.1, true) else (t, false)

/-- Step 3 of `fix` (`convertLiterals`): word-boundary replacement of
`None`, `undefined`, `NULL`, `True`, `False` on the raw text. -/
def convertLiterals (t : List Char) : List Char × Option FixReport :=
  let s1 := replaceWordIfAny noneChars nullChars t
  let s2 := replaceWordIfAny undefinedChars nullChars s1.1
  let s3 := replaceWordIfAny nullUpperChars nullChars s2.1
  let s4 := replaceWordIfAny trueUpperChars trueChars s3.1
  let s5 := replaceWordIfAny falseUpperChars falseChars s4.1
  if s1.2 || s2.2 || s3.2 || s4.2 || s5.2 then
    (s5.1, some { type := .other, description := "Converted literals to JSON format",
                  posStart := 0, posEnd := s5.1.length, original := t, fixed := s5.1 })
  else (s5.1, none)

/-- One `\b0x([0-9A-Fa-f]+)\b` match, replaced by its decimal form. -/
def hexStep (prevWord : Bool) (t : List Char) : Option (List Char × List Char) :=
  match t with
  | '0' :: 'x' :: rest =>
    if prevWord then none
    else
      let ds := rest.takeWhile isHexDigit
      if ds.isEmpty then none
      else
        let after := rest.drop ds.length
        match after.head? with
        | some c => if isJsWordChar c then none else some (natToDecimal (hexToNat ds), after)
        | none => some (natToDecimal (hexToNat ds), after)
  | _ => none

/-- Step 4 of `fix` (`convertHexNumbers`). -/
def convertHexNumbers (t : List Char) : List Char × Option FixReport :=
  let p := replaceAllW hexStep t
  if p.2 > 0 then
    (p.1, some { type := .other, description := "Converted hex numbers to decimal",
                 posStart := 0, posEnd := p.1.length, original := t, fixed := p.1 })
  else (t, none)

/-- One doubled-delimiter match (`{{`, `[[`, `}}` or `]]`). -/
def dupStep (d : Char) (t : List Char) : Option (List Char × List Char × Bool) :=
  match t with
  | c1 :: c2 :: rest => if c1 = d && c2 = d then some ([d], rest, true) else none
  | _ => none

/-- Step 5 of `fix` (`fixDuplicateDelimiters`): collapse `{{`, `[[`, `}}`, `]]`. -/
def fixDuplicateDelimiters (t : List Char) : List Char × Option FixReport :=
  let r1 := replaceAll (dupStep '{') t
  let r2 := replaceAll (dupStep '[') r1
  let r3 := replaceAll (dupStep '}') r2
  let r := replaceAll (dupStep ']') r3
  if r ≠ t then
    (r, some { type := .bracket, description := "Fixed duplicate delimiters",
               posStart := 0, posEnd := r.length, original := t, fixed := r })
  else (r, none)

/-- Inner scan of `fixSingleQuotes`: from just after an opening single quote,
collect content (escape pairs kept verbatim) up to a closing single quote. -/
def sqScan : List Char → Option (List Char × List Char)
  | [] => none
  | c :: rest =>
    if c = singleQuoteChar then some ([], rest)
    else if c = '\\' then
      match rest with
      | d :: rest2 => (sqScan rest2).map (fun p => (c :: d :: p.1, p.2))
      | [] => none
    else (sqScan rest).map (fun p => (c :: p.1, p.2))

/-- The character-by-character loop of `fixSingleQuotes`. -/
def sqGo : Nat → List Char → List Char × Bool
  | 0, t => (t, false)
  | _ + 1, [] => ([], false)
  | n + 1, c :: rest =>
    if c = singleQuoteChar then
      match sqScan rest with
      | some (content, after) =>
        let p := sqGo n after
        ('"' :: content ++ '"' :: p.1, true)
      | none =>
        let p := sqGo n rest
        (c :: p.1, p.2)
    else
      let p := sqGo n rest
      (c :: p.1, p.2)

/-- Step 6 of `fix` (`fixSingleQuotes`): convert complete single-quoted
strings to double-quoted ones; an unterminated single quote is copied. -/
def fixSingleQuotes (t : List Char) : List Char × Option FixReport :=
  let p := sqGo t.length t
  if p.2 then
    (p.1, some { type := .quote, description := "Converted single quotes to double quotes",
                 posStart := 0, posEnd := p.1.length, original := t, fixed := p.1 })
  else (t, none)

/-- Not a double quote and not a backslash (`[^"\\]`). -/
def notQB (c : Char) : Bool := c ≠ '"' && c ≠ '\\'

/-- One match of `/"([^"\\]*)"(\s*)([^"\\]+)"(\s*)([^"\\]*)"(?=\s*[,}\]])/`.
All character classes are forced maximal (they cannot cross a quote), so the
match is deterministic; the middle group gets one character back when the run
between the second and third quotes is all whitespace. -/
def uqStep (t : List Char) : Option (List Char × List Char × Bool) :=
  match t with
  | '"' :: r0 =>
    let a := r0.takeWhile notQB
    let r1 := r0.drop a.length
    match r1 with
    | '"' :: r1' =>
      let run1 := r1'.takeWhile notQB
      if run1.isEmpty then none
      else
        let r2 := r1'.drop run1.length
        match r2 with
        | '"' :: r2' =>
          let run2 := r2'.takeWhile notQB
          let r3 := r2'.drop run2.length
          match r3 with
          | '"' :: r3' =>
            match (r3'.dropWhile isJsWs).head? with
            | some la =>
              if la = ',' || la = '}' || la = ']' then
                let ws1 := run1.takeWhile isJsWs
                let s1 := if ws1.length = run1.length then run1.take (run1.length - 1) else ws1
                let b := run1.drop s1.length
                let s2 := run2.takeWhile isJsWs
                let cpart := run2.drop s2.length
                if (jsTrim b).length > 0 && ¬ b.contains ':' && ¬ b.contains '{' &&
                    ¬ b.contains '[' then
                  some ('"' :: a ++ s1 ++ ['\\', '"'] ++ b ++ ['\\', '"'] ++ s2 ++ cpart ++ ['"'],
                        r3', true)
                else
                  some ('"' :: a ++ '"' :: run1 ++ '"' :: run2 ++ ['"'], r3', false)
              else none
            | none => none
          | _ => none
        | _ => none
    | _ => none
  | _ => none

/-- Step 7 of `fix` (`fixUnescapedQuotes`). -/
def fixUnescapedQuotes (t : List Char) : List Char × Option FixReport :=
  let p := replaceAllC uqStep t
  if p.2 > 0 then
    (p.1, some { type := .quote, description := "Fixed unescaped quotes in string values",
                 posStart := 0, posEnd := p.1.length, original := t, fixed := p.1 })
  else (p.1, none)

/-- One `\\x[0-9A-Fa-f]{2}` match, deleted. -/
def hexEscStep (t : List Char) : Option (List Char × List Char × Bool) :=
  match t with
  | '\\' :: 'x' :: h1 :: h2 :: rest =>
    if isHexDigit h1 && isHexDigit h2 then some ([], rest, true) else none
  | _ => none

/-- One `\\u[0-9A-Fa-f]{4}` match, replaced by the decoded character
(`JSON.parse` of the escape, which succeeds for every 4-hex-digit escape). -/
def uniEscStep (t : List Char) : Option (List Char × List Char × Bool) :=
  match t with
  | '\\' :: 'u' :: h1 :: h2 :: h3 :: h4 :: rest =>
    if isHexDigit h1 && isHexDigit h2 && isHexDigit h3 && isHexDigit h4 then
      some ([Char.ofNat (hexToNat [h1, h2, h3, h4])], rest, true)
    else none
  | _ => none

/-- Step 8 of `fix` (`fixEscapeSequences`): delete `\xNN` escapes, decode
`\uNNNN` escapes.  Faithfully to the source, only the `\xNN` replacement sets
the change flag, so a pure `\uNNNN` rewrite produces no `FixReport`. -/
def fixEscapeSequences (t : List Char) : List Char × Option FixReport :=
  let r1 := replaceAll hexEscStep t
  let hasChanges := r1 ≠ t
  let r2 := replaceAll uniEscStep r1
  if hasChanges then
    (r2, some { type := .other, description := "Fixed invalid escape sequences",
                posStart := 0, posEnd := r2.length, original := t, fixed := r2 })
  else (r2, none)

/-- One match of `/([{,]\s*)([a-zA-Z_$][a-zA-Z0-9_$]*)\s*:/`, replaced by
`$1"$2":` (whitespace before the colon is dropped by the replacement). -/
def qkStep (t : List Char) : Option (List Char × List Char × Bool) :=
  match t with
  | c :: r0 =>
    if c = '{' || c = ',' then
      let w := r0.takeWhile isJsWs
      let r1 := r0.drop w.length
      match r1 with
      | i0 :: r1' =>
        if isIdentStart i0 then
          let idRest := r1'.takeWhile isIdentChar
          let r2 := r1'.drop idRest.length
          let w2 := r2.takeWhile isJsWs
          let r3 := r2.drop w2.length
          match r3 with
          | ':' :: r4 => some (c :: w ++ '"' :: i0 :: idRest ++ ['"', ':'], r4, true)
          | _ => none
        else none
      | [] => none
    else none
  | [] => none

/-- Step 9 of `fix` (`quoteUnquotedKeys`). -/
def quoteUnquotedKeys (t : List Char) : List Char × Option FixReport :=
  let r := replaceAll qkStep t
  if r ≠ t then
    (r, some { type := .quote, description := "Quoted unquoted keys",
               posStart := 0, posEnd := r.length, original := t, fixed := r })
  else (r, none)

/-- Scan the body of a double-quoted token per `(?:[^"\\]|\\.)*"`: content with
escape pairs kept verbatim, up to the closing quote. -/
def dqScan : List Char → Option (List Char × List Char)
  | [] => none
  | c :: rest =>
    if c = '"' then some ([], rest)
    else if c = '\\' then
      match rest with
      | d :: rest2 => (dqScan rest2).map (fun p => (c :: d :: p.1, p.2))
      | [] => none
    else (dqScan rest).map (fun p => (c :: p.1, p.2))

/-- Match `"?\w+"?\s*:` (group 3 of two missing-comma patterns); returns the
consumed span (which includes the colon) and the rest. -/
def g3Match (t : List Char) : Option (List Char × List Char) :=
  let (q1, r1) :=
    match t with
    | '"' :: r => ((['"'] : List Char), r)
    | _ => ([], t)
  let w := r1.takeWhile isJsWordChar
  if w.isEmpty then none
  else
    let r2 := r1.drop w.length
    let (q2, r3) :=
      match r2 with
      | '"' :: r => ((['"'] : List Char), r)
      | _ => ([], r2)
    let ws := r3.takeWhile isJsWs
    let r4 := r3.drop ws.length
    match r4 with
    | ':' :: r5 => some (q1 ++ w ++ q2 ++ ws ++ [':'], r5)
    | _ => none

/-- `/"([^"]*)"(\s+)"([^"]+)"(\s*):/` → `"$1",$2"$3"$4:`. -/
def mcStepA (t : List Char) : Option (List Char × List Char × Bool) :=
  match t with
  | '"' :: r0 =>
    let a := r0.takeWhile (fun c => c ≠ '"')
    match r0.drop a.length with
    | '"' :: r1 =>
      let ws := r1.takeWhile isJsWs
      if ws.isEmpty then none
      else
        match r1.drop ws.length with
        | '"' :: r2 =>
          let b := r2.takeWhile (fun c => c ≠ '"')
          if b.isEmpty then none
          else
            match r2.drop b.length with
            | '"' :: r3 =>
              let ws2 := r3.takeWhile isJsWs
              match r3.drop ws2.length with
              | ':' :: r4 =>
                some ('"' :: a ++ '"' :: ',' :: ws ++ '"' :: b ++ '"' :: ws2 ++ [':'], r4, true)
              | _ => none
            | _ => none
        | _ => none
    | _ => none
  | _ => none

/-- `/}(\s*)"([^"]+)"(\s*):/` → `},$1"$2"$3:` (and the `]` variant). -/
def mcStepClose (cl : Char) (t : List Char) : Option (List Char × List Char × Bool) :=
  match t with
  | c :: r0 =>
    if c = cl then
      let ws := r0.takeWhile isJsWs
      match r0.drop ws.length with
      | '"' :: r1 =>
        let b := r1.takeWhile (fun c => c ≠ '"')
        if b.isEmpty then none
        else
          match r1.drop b.length with
          | '"' :: r2 =>
            let ws2 := r2.takeWhile isJsWs
            match r2.drop ws2.length with
            | ':' :: r3 =>
              some (cl :: ',' :: ws ++ '"' :: b ++ '"' :: ws2 ++ [':'], r3, true)
            | _ => none
          | _ => none
      | _ => none
    else none
  | [] => none

/-- `/(\w+)(\s+)(\w+)(\s*):/` → `$1,$2$3$4:`. -/
def mcStepD (t : List Char) : Option (List Char × List Char × Bool) :=
  let w1 := t.takeWhile isJsWordChar
  if w1.isEmpty then none
  else
    let r1 := t.drop w1.length
    let ws := r1.takeWhile isJsWs
    if ws.isEmpty then none
    else
      let r2 := r1.drop ws.length
      let w2 := r2.takeWhile isJsWordChar
      if w2.isEmpty then none
      else
        let r3 := r2.drop w2.length
        let ws2 := r3.takeWhile isJsWs
        match r3.drop ws2.length with
        | ':' :: r4 => some (w1 ++ ',' :: ws ++ w2 ++ ws2 ++ [':'], r4, true)
        | _ => none

/-- The `(\d+|true|false|null)` alternative at the head of the text. -/
def valTok (t : List Char) : Option (List Char × List Char) :=
  match t.head? with
  | some c =>
    if isDigit c then
      let ds := t.takeWhile isDigit
      some (ds, t.drop ds.length)
    else if trueChars.isPrefixOf t then some (trueChars, t.drop 4)
    else if falseChars.isPrefixOf t then some (falseChars, t.drop 5)
    else if nullChars.isPrefixOf t then some (nullChars, t.drop 4)
    else none
  | none => none

/-- `/(\d+|true|false|null)(\s+)("?\w+"?\s*:)/` → `$1,$2$3`. -/
def mcStepE (t : List Char) : Option (List Char × List Char × Bool) :=
  match valTok t with
  | some (tok, r1) =>
    let ws := r1.takeWhile isJsWs
    if ws.isEmpty then none
    else
      match g3Match (r1.drop ws.length) with
      | some (g3, r2) => some (tok ++ ',' :: ws ++ g3, r2, true)
      | none => none
  | none => none

/-- `/}(\s*){/` and friends → `$1,$2{`-style comma insertion between closers
and openers. -/
def mcStepPair (cl op : Char) (t : List Char) : Option (List Char × List Char × Bool) :=
  match t with
  | c :: r0 =>
    if c = cl then
      let ws := r0.takeWhile isJsWs
      match r0.drop ws.length with
      | c2 :: r1 => if c2 = op then some (cl :: ',' :: ws ++ [op], r1, true) else none
      | [] => none
    else none
  | [] => none

/-- `/("(?:[^"\\]|\\.)*")(\s+)("?\w+"?\s*:)/` → `$1,$2$3`. -/
def mcStepG (t : List Char) : Option (List Char × List Char × Bool) :=
  match t with
  | '"' :: r0 =>
    match dqScan r0 with
    | some (content, r1) =>
      let ws := r1.takeWhile isJsWs
      if ws.isEmpty then none
      else
        match g3Match (r1.drop ws.length) with
        | some (g3, r2) => some ('"' :: content ++ '"' :: ',' :: ws ++ g3, r2, true)
        | none => none
    | none => none
  | _ => none

/-- Step 10 of `fix` (`fixMissingCommas`): the source's sequence of global
replacements, in order. -/
def fixMissingCommas (t : List Char) : List Char × Option FixReport :=
  let r1 := replaceAll mcStepA t
  let r2 := replaceAll (mcStepClose '}') r1
  let r3 := replaceAll (mcStepClose ']') r2
  let r4 := replaceAll mcStepD r3
  let r5 := replaceAll mcStepE r4
  let r6 := replaceAll (mcStepPair '}' '{') r5
  let r7 := replaceAll (mcStepPair ']' '[') r6
  let r8 := replaceAll (mcStepPair '}' '[') r7
  let r9 := replaceAll (mcStepPair ']' '{') r8
  let r := replaceAll mcStepG r9
  if r ≠ t then
    (r, some { type := .comma, description := "Added missing commas",
               posStart := 0, posEnd := r.length, original := t, fixed := r })
  else (r, none)

/-- `/,(\s*),/` → `,` (both commas and the whitespace collapse to one comma). -/
def dcStepA (t : List Char) : Option (List Char × List Char × Bool) :=
  match t with
  | ',' :: r0 =>
    let ws := r0.takeWhile isJsWs
    match r0.drop ws.length with
    | ',' :: r1 => some ([','], r1, true)
    | _ => none
  | _ => none

/-- `/\[(\s*),/` → `[`. -/
def dcStepB (t : List Char) : Option (List Char × List Char × Bool) :=
  match t with
  | '[' :: r0 =>
    let ws := r0.takeWhile isJsWs
    match r0.drop ws.length with
    | ',' :: r1 => some (['['], r1, true)
    | _ => none
  | _ => none

/-- `/,(\s*)\]/` → `]`. -/
def dcStepC (t : List Char) : Option (List Char × List Char × Bool) :=
  match t with
  | ',' :: r0 =>
    let ws := r0.takeWhile isJsWs
    match r0.drop ws.length with
    | ']' :: r1 => some ([']'], r1, true)
    | _ => none
  | _ => none

/-- Step 11 of `fix` (`fixDoubleCommas`). -/
def fixDoubleCommas (t : List Char) : List Char × Option FixReport :=
  let r := replaceAll dcStepC (replaceAll dcStepB (replaceAll dcStepA t))
  if r ≠ t then
    (r, some { type := .comma, description := "Fixed double commas and empty slots",
               posStart := 0, posEnd := r.length, original := t, fixed := r })
  else (r, none)

/-- `/,(\s*[}\]])/` → `$1`. -/
def tcStepA (t : List Char) : Option (List Char × List Char × Bool) :=
  match t with
  | ',' :: r0 =>
    let ws := r0.takeWhile isJsWs
    match r0.drop ws.length with
    | c :: r1 => if c = '}' || c = ']' then some (ws ++ [c], r1, true) else none
    | [] => none
  | _ => none

/-- `/,(\s*\n\s*[}\]])/` → `$1` (the whitespace run must contain a newline). -/
def tcStepB (t : List Char) : Option (List Char × List Char × Bool) :=
  match t with
  | ',' :: r0 =>
    let ws := r0.takeWhile isJsWs
    if ¬ ws.contains '\n' then none
    else
      match r0.drop ws.length with
      | c :: r1 => if c = '}' || c = ']' then some (ws ++ [c], r1, true) else none
      | [] => none
  | _ => none

/-- Step 12 of `fix` (`fixTrailingCommas`). -/
def fixTrailingCommas (t : List Char) : List Char × Option FixReport :=
  let r := replaceAll tcStepB (replaceAll tcStepA t)
  if r ≠ t then
    (r, some { type := .comma, description := "Removed trailing commas",
               posStart := 0, posEnd := r.length, original := t, fixed := r })
  else (r, none)

/-- Does `[{,]\s*\w+\s*:\s*$` match starting exactly here (to end of text)? -/
def danglingAssignAt (t : List Char) : Bool :=
  match t with
  | c :: r0 =>
    if c = '{' || c = ',' then
      let r1 := r0.dropWhile isJsWs
      let w := r1.takeWhile isJsWordChar
      if w.isEmpty then false
      else
        match (r1.drop w.length).dropWhile isJsWs with
        | ':' :: r2 => r2.all isJsWs
        | _ => false
    else false
  | [] => false

/-- `result.match(/[{,]\s*\w+\s*:\s*$/)`: a match at some position. -/
def danglingAssignMatch : List Char → Bool
  | [] => false
  | c :: rest => danglingAssignAt (c :: rest) || danglingAssignMatch rest

/-- The mismatch-detection scan of `balanceBrackets`: string-aware, escape
honoring; returns `(position, expectedCloser)` for each closer that disagrees
with the frame on top of the stack. -/
def bbScanCorrections : List Char → Nat → List Char → Bool → Bool → List (Nat × Char)
  | [], _, _, _, _ => []
  | c :: rest, i, stack, inStr, esc =>
    if esc then bbScanCorrections rest (i + 1) stack inStr false
    else if c = '\\' then bbScanCorrections rest (i + 1) stack inStr true
    else if c = '"' then bbScanCorrections rest (i + 1) stack (!inStr) false
    else if inStr then bbScanCorrections rest (i + 1) stack inStr false
    else if c = '{' then bbScanCorrections rest (i + 1) ('}' :: stack) inStr false
    else if c = '[' then bbScanCorrections rest (i + 1) (']' :: stack) inStr false
    else if c = '}' || c = ']' then
      match stack with
      | [] => bbScanCorrections rest (i + 1) [] inStr false
      | e :: s' =>
        if e ≠ c then (i, e) :: bbScanCorrections rest (i + 1) s' inStr false
        else bbScanCorrections rest (i + 1) s' inStr false
    else bbScanCorrections rest (i + 1) stack inStr false

/-- Apply the recorded single-character substitutions (right to left, as the
source does; the order is immaterial since each touches a distinct index). -/
def applyCorrections (t : List Char) (cs : List (Nat × Char)) : List Char :=
  cs.reverse.foldl (fun acc pc => acc.set pc.1 pc.2) t

/-- Does `/,\s*$/` match, i.e. is there a comma followed only by whitespace? -/
def commaWsEnd : List Char → Bool
  | [] => false
  | c :: rest => (c = ',' && rest.all isJsWs) || commaWsEnd rest

/-- `result.replace(/,\s*$/, '')`: cut at the leftmost such comma. -/
def stripCommaWsEndStep (t : List Char) : Option (List Char × List Char) :=
  match t with
  | ',' :: r => if r.all isJsWs then some ([], []) else none
  | _ => none

/-- The string-aware open-delimiter stack of `balanceBrackets`; the returned
list is most-recently-opened first, which is the order closers are appended. -/
def bbOpenStack : List Char → List Char → Bool → Bool → List Char
  | [], stack, _, _ => stack
  | c :: rest, stack, inStr, esc =>
    if esc then bbOpenStack rest stack inStr false
    else if c = '\\' then bbOpenStack rest stack inStr true
    else if c = '"' then bbOpenStack rest stack (!inStr) false
    else if inStr then bbOpenStack rest stack inStr false
    else if c = '{' then bbOpenStack rest ('}' :: stack) inStr false
    else if c = '[' then bbOpenStack rest (']' :: stack) inStr false
    else if c = '}' || c = ']' then
      match stack with
      | [] => bbOpenStack rest [] inStr false
      | _ :: s' => bbOpenStack rest s' inStr false
    else bbOpenStack rest stack inStr false

/-- Step 13 of `fix` (`balanceBrackets`): append `null` after a dangling
colon or assignment, repair closer mismatches, strip a trailing comma, and
append the closers of all still-open frames in LIFO order. -/
def balanceBrackets (t : List Char) : List Char × Option FixReport :=
  let ch1 := t.getLast? = some ':'
  let r1 := if ch1 then t ++ nullChars else t
  let ch2 := danglingAssignMatch r1
  let r2 := if ch2 then r1 ++ nullChars else r1
  let inMismatch := r2.contains '[' && r2.contains '}'
  let cs := bbScanCorrections r2 0 [] false false
  let r3 := if inMismatch then applyCorrections r2 cs else r2
  let ch3 := inMismatch && ¬ cs.isEmpty
  let tc := (r3.getLast? = some ',') || commaWsEnd r3
  let r4 := if tc then replaceFirst stripCommaWsEndStep r3.length r3 else r3
  let os := bbOpenStack r4 [] false false
  let r5 := r4 ++ os
  if ch1 || ch2 || ch3 || tc || ¬ os.isEmpty then
    (r5, some { type := .bracket,
                description := "Balanced brackets and completed incomplete structures",
                posStart := 0, posEnd := r5.length, original := t, fixed := r5 })
  else (r5, none)

/-- The string-aware top-level `{...}` span scan of `handleMultipleRoots`. -/
def rootSectionsGo (trm : List Char) :
    List Char → Nat → Int → Nat → Bool → Bool → List (List Char)
  | [], _, _, _, _, _ => []
  | c :: rest, i, bc, st, inStr, esc =>
    if esc then rootSectionsGo trm rest (i + 1) bc st inStr false
    else if c = '\\' then rootSectionsGo trm rest (i + 1) bc st inStr true
    else if c = '"' then rootSectionsGo trm rest (i + 1) bc st (!inStr) false
    else if inStr then rootSectionsGo trm rest (i + 1) bc st inStr false
    else if c = '{' then
      let st' := if bc = 0 then i else st
      rootSectionsGo trm rest (i + 1) (bc + 1) st' inStr false
    else if c = '}' then
      if bc - 1 = 0 then
        ((trm.drop st).take (i + 1 - st)) :: rootSectionsGo trm rest (i + 1) (bc - 1) st inStr false
      else rootSectionsGo trm rest (i + 1) (bc - 1) st inStr false
    else rootSectionsGo trm rest (i + 1) bc st inStr false

def stripOneTrailingComma (l : List Char) : List Char :=
  if l.getLast? = some ',' then l.dropLast else l

/-- Step 14 of `fix` (`handleMultipleRoots`): if several complete,
independently-parseable top-level objects exist, join them into an array;
otherwise try the line-per-object variant. -/
def handleMultipleRoots (t : List Char) : List Char × Option FixReport :=
  let trm := jsTrim t
  let secs := rootSectionsGo trm trm 0 0 0 false false
  let valids := secs.filterMap (fun s =>
    let st := jsTrim s
    if parseOk st then some st else none)
  if secs.length > 1 && valids.length > 1 then
    let arr := '[' :: List.intercalate [','] valids ++ [']']
    (arr, some { type := .other, description := "Converted multiple root objects to array",
                 posStart := 0, posEnd := arr.length, original := t, fixed := arr })
  else if containsSub ['}', '\n', '{'] trm || containsSub ['}', ',', '\n', '{'] trm then
    let objLines := (splitNl trm).filterMap (fun l =>
      let cl := stripOneTrailingComma (jsTrim l)
      if cl.head? = some '{' && cl.getLast? = some '}' && parseOk cl then some cl else none)
    if objLines.length > 1 then
      let arr := '[' :: List.intercalate [','] objLines ++ [']']
      (arr, some { type := .other, description := "Converted CSV-style object rows to array",
                   posStart := 0, posEnd := arr.length, original := t, fixed := arr })
    else (t, none)
  else (t, none)

/-- Suffix test for `/:\s*["']?\s*$/` after the colon. -/
def danglingColonSfx (r : List Char) : Bool :=
  match r.dropWhile isJsWs with
  | [] => true
  | q :: r2 => (q = '"' || q = singleQuoteChar) && r2.all isJsWs

def daStepA (t : List Char) : Option (List Char × List Char) :=
  match t with
  | ':' :: r => if danglingColonSfx r then some ([], []) else none
  | _ => none

def daStepB (t : List Char) : Option (List Char × List Char) :=
  match t with
  | c :: r =>
    if (c = ',' || c = ':' || c = ';') && r.all isJsWs then some ([], []) else none
  | [] => none

/-- Step 15 of `fix` (`removeDanglingArtifacts`): first-match (non-global)
removal of a trailing `: "`-style artifact, then of one trailing `,`/`:`/`;`. -/
def removeDanglingArtifacts (t : List Char) : List Char × Option FixReport :=
  let r1 := replaceFirst daStepA t.length t
  let r2 := replaceFirst daStepB r1.length r1
  if r2 ≠ t then
    (r2, some { type := .other, description := "Removed dangling artifacts",
                posStart := 0, posEnd := r2.length, original := t, fixed := r2 })
  else (r2, none)

def bsqStep (t : List Char) : Option (List Char × List Char × Bool) :=
  match t with
  | '\\' :: '"' :: r => some (['"'], r, true)
  | _ => none

def bs2Step (t : List Char) : Option (List Char × List Char × Bool) :=
  match t with
  | '\\' :: '\\' :: r => some (['\\'], r, true)
  | _ => none

/-- `content.replace(/\\"/g, '"').replace(/\\\\/g, '\\')`. -/
def unescContent (c : List Char) : List Char :=
  replaceAll bs2Step (replaceAll bsqStep c)

/-- One string-literal match of `unescapeStringifiedJSON`: unescape candidate
content and substitute it if the unescaped text strict-parses.  (The recursive
`this.fix` fallback in the source sits in a `catch` block that is dead code,
because `this.parse` never throws.) -/
def usjStep (t : List Char) : Option (List Char × List Char × Bool) :=
  match t with
  | '"' :: r0 =>
    match dqScan r0 with
    | some (content, rest) =>
      if containsSub ['\\', '"'] content && (content.contains '{' || content.contains '[') then
        let u := unescContent content
        if parseOk u then some (u, rest, true)
        else some ('"' :: content ++ ['"'], rest, false)
      else some ('"' :: content ++ ['"'], rest, false)
    | none => none
  | _ => none

/-- The bounded sweep loop of `unescapeStringifiedJSON` (at most 10 passes). -/
def usjLoop : Nat → List Char → List Char × Bool
  | 0, t => (t, false)
  | n + 1, t =>
    let p := replaceAllC usjStep t
    if p.2 > 0 then
      let q := usjLoop n p.1
      (q.1, true)
    else (p.1, false)

/-- Step 16 of `fix` (`unescapeStringifiedJSON`). -/
def unescapeStringifiedJSON (t : List Char) : List Char × Option FixReport :=
  let p := usjLoop 10 t
  if p.2 then
    (p.1, some { type := .other, description := "Unescaped stringified JSON",
                 posStart := 0, posEnd := p.1.length, original := t, fixed := p.1 })
  else (p.1, none)

def isOctalDigit (c : Char) : Bool := ('0' ≤ c) && (c ≤ '7')

def isBinaryDigit (c : Char) : Bool := c = '0' || c = '1'

def infinityChars : List Char := "Infinity".toList

/-- The decimal part of the JavaScript `Number()` string grammar (after an
optional sign): digits, optional fraction, optional exponent. -/
def jsDecimalLit (t : List Char) : Bool :=
  let intD := t.takeWhile isDigit
  let r1 := t.drop intD.length
  let (fracD, r2) :=
    match r1 with
    | '.' :: r => (r.takeWhile isDigit, r.drop (r.takeWhile isDigit).length)
    | _ => ([], r1)
  if intD.isEmpty && fracD.isEmpty && r1.head? = some '.' then false
  else if intD.isEmpty && r1.head? ≠ some '.' then false
  else
    match r2 with
    | [] => true
    | e :: r3 =>
      if e = 'e' || e = 'E' then
        let r4 :=
          match r3 with
          | '+' :: r => r
          | '-' :: r => r
          | _ => r3
        let expD := r4.takeWhile isDigit
        ¬ expD.isEmpty && (r4.drop expD.length).isEmpty
      else false

/-- Model of `!isNaN(Number(s))` for an already-trimmed `s`. -/
def jsNumberOk (t : List Char) : Bool :=
  match t with
  | [] => true
  | '0' :: x :: rest =>
    if x = 'x' || x = 'X' then ¬ rest.isEmpty && rest.all isHexDigit
    else if x = 'o' || x = 'O' then ¬ rest.isEmpty && rest.all isOctalDigit
    else if x = 'b' || x = 'B' then ¬ rest.isEmpty && rest.all isBinaryDigit
    else jsDecimalLit t
  | '+' :: r => r = infinityChars || jsDecimalLit r
  | '-' :: r => r = infinityChars || jsDecimalLit r
  | _ => t = infinityChars || jsDecimalLit t

/-- Tail of `finalFixAttempt` shared by its fall-through paths. -/
def finalTail (r : List Char) : Except Unit (List Char) :=
  if r.contains ':' && (jsTrim r).head? ≠ some '{' && (jsTrim r).head? ≠ some '[' then
    .ok ('{' :: r ++ ['}'])
  else if r.contains '{' && ¬ r.contains '}' then .ok (r ++ ['}'])
  else if r.contains '[' && ¬ r.contains ']' then .ok (r ++ [']'])
  else .ok r

/-- `finalFixAttempt`: the last-resort heuristic.  It throws (here:
`Except.error`) when the input looks like plain multi-word prose with no JSON
punctuation. -/
def finalFixAttempt (text : List Char) : Except Unit (List Char) :=
  let r := jsTrim text
  if r.isEmpty || r = ['"', '"'] then .ok nullChars
  else if ['/', '/'].isPrefixOf r && ¬ r.contains '{' && ¬ r.contains '[' then .ok nullChars
  else
    let hasJson := r.contains '{' || r.contains '[' || r.contains ':' || r.contains '"'
    if ¬ hasJson && (splitSpace r).length > 3 then .error ()
    else if ¬ r.contains '{' && ¬ r.contains '[' && ¬ r.contains '"' then
      let trm := jsTrim r
      if trm = trueChars || trm = falseChars || trm = nullChars then .ok trm
      else if jsNumberOk trm && ¬ trm.isEmpty then .ok trm
      else if ¬ trm.isEmpty && ¬ trm.contains ' ' then .ok ('"' :: trm ++ ['"'])
      else finalTail r
    else finalTail r

/-- Steps 1-16 of `fix`, threading the text and accumulating the fix reports
in pass order. -/
def runPasses (t : List Char) : List Char × List FixReport :=
  let s1 := removeBom t
  let s2 := removeComments s1.1
  let s3 := convertLiterals s2.1
  let s4 := convertHexNumbers s3.1
  let s5 := fixDuplicateDelimiters s4.1
  let s6 := fixSingleQuotes s5.1
  let s7 := fixUnescapedQuotes s6.1
  let s8 := fixEscapeSequences s7.1
  let s9 := quoteUnquotedKeys s8.1
  let s10 := fixMissingCommas s9.1
  let s11 := fixDoubleCommas s10.1
  let s12 := fixTrailingCommas s11.1
  let s13 := balanceBrackets s12.1
  let s14 := handleMultipleRoots s13.1
  let s15 := removeDanglingArtifacts s14.1
  let s16 := unescapeStringifiedJSON s15.1
  (s16.1,
    [s1.2, s2.2, s3.2, s4.2, s5.2, s6.2, s7.2, s8.2, s9.2, s10.2, s11.2, s12.2,
     s13.2, s14.2, s15.2, s16.2].filterMap id)

/-- The record pushed when the final recovery attempt succeeds. -/
def finalRecoveryRecord (fixed fa : List Char) : FixReport :=
  { type := .other, description := "Applied final recovery fixes",
    posStart := 0, posEnd := fa.length, original := fixed, fixed := fa }

/-- The body of `fix` inside its `try`: run the pipeline, parse, and fall back
to `finalFixAttempt` (whose exception propagates as `Except.error`). -/
def fixBody (t : List Char) : Except Unit FixResult :=
  if parseOk (jsTrim (runPasses t).1) then
    .ok { success := true, data := some (jsTrim (runPasses t).1),
          fixes := (runPasses t).2, error := none }
  else
    match finalFixAttempt (jsTrim (runPasses t).1) with
    | .error e => .error e
    | .ok fa =>
      if parseOk fa then
        .ok { success := true, data := some fa,
              fixes := (runPasses t).2 ++ [finalRecoveryRecord (jsTrim (runPasses t).1) fa],
              error := none }
      else
        .ok { success := false, data := none, fixes := (runPasses t).2,
              error := some { message := "Unable to fix JSON after all attempts" } }

/-- `JSONMan.fix`: the public repair entry point; the surrounding `catch`
converts any internal exception into a structured failure with empty fixes. -/
def fix (t : List Char) : FixResult :=
  match fixBody t with
  | .ok r => r
  | .error _ =>
    { success := false, data := none, fixes := [],
      error := some { message := "Failed to fix JSON" } }

end JSONMan

/-! ## `Parser.diagnose` (from `modules/parser/Parser.ts`)

`Parser.safe` wraps `JSON.parse` exactly as `JSONMan.parse` does, so strict
parse success is `parseOk`.  `diagnose` runs four catalogue patterns with
`matchAll` and pushes one identical error object per match of each pattern. -/

namespace Parser

structure DiagnosticError where
  type : String
  message : String
  suggestion : String
deriving DecidableEq

structure DiagnosticResult where
  isValid : Bool
  errors : List DiagnosticError
deriving DecidableEq

/-- Matches of `/'/g`: every single-quote character. -/
def quoteCount (t : List Char) : Nat :=
  (t.filter (fun c => c = singleQuoteChar)).length

/-- Matches of `/,(\s*[}\]])/g` (same pattern as the trailing-comma pass). -/
def trailingCommaCount (t : List Char) : Nat :=
  (replaceAllC JSONMan.tcStepA t).2

/-- Matches of `/([{,]\s*)([a-zA-Z_$][a-zA-Z0-9_$]*)\s*:/g` (same pattern as
the key-quoting pass). -/
def unquotedKeyCount (t : List Char) : Nat :=
  (replaceAllC JSONMan.qkStep t).2

/-- One `/:\s*undefined/g` match. -/
def undefStep (t : List Char) : Option (List Char × List Char × Bool) :=
  match t with
  | ':' :: r0 =>
    let ws := r0.takeWhile isJsWs
    let r1 := r0.drop ws.length
    if JSONMan.undefinedChars.isPrefixOf r1 then
      some (':' :: ws ++ JSONMan.undefinedChars, r1.drop 9, true)
    else none
  | _ => none

def undefValueCount (t : List Char) : Nat :=
  (replaceAllC undefStep t).2

def quoteErr : DiagnosticError :=
  { type := "quote", message := "Single quotes found",
    suggestion := "Use double quotes instead" }

def commaErr : DiagnosticError :=
  { type := "comma", message := "Trailing comma found",
    suggestion := "Remove trailing commas" }

def keyErr : DiagnosticError :=
  { type := "key", message := "Unquoted key found",
    suggestion := "Quote all object keys" }

def valueErr : DiagnosticError :=
  { type := "value", message := "undefined value found",
    suggestion := "Use null instead of undefined" }

/-- The error list built by `diagnose`'s issue loop: for each catalogue entry
in order, one (identical) error object per match. -/
def diagErrors (t : List Char) : List DiagnosticError :=
  List.replicate (quoteCount t) quoteErr ++
  List.replicate (trailingCommaCount t) commaErr ++
  List.replicate (unquotedKeyCount t) keyErr ++
  List.replicate (undefValueCount t) valueErr

/-- `Parser.diagnose`: valid inputs get no findings; invalid inputs get the
per-occurrence error list. -/
def diagnose (t : List Char) : DiagnosticResult :=
  if parseOk t then { isValid := true, errors := [] }
  else { isValid := false, errors := diagErrors t }

end Parser

/-! ## Concrete inputs and expected outputs used by the claims -/

def c1In : List Char := "[[1]]".toList
def c1Out : List Char := "[1]".toList
def c1w : List Char := "\x7b\"a\":1\x7d".toList
def c2In : List Char := "\x7b\"a\":\"None\"\x7d".toList
def c2Out : List Char := "\x7b\"a\":\"null\"\x7d".toList
def c2w : List Char := "\"ab[\x7b\"".toList
def c4t : List Char := "\x7b\"a\":\x7b\"b\":1\x7d\x7d".toList
def c4w : List Char := "[1,2]".toList
def c5In : List Char := "\x7ba:\x7bb:[1,2,3,\x7bc:".toList
def c5Out : List Char := "\x7b\"a\":\x7b\"b\":[1,2,3,\x7b\"c\":null\x7d]\x7d\x7d".toList
def c5Val : JVal :=
  JVal.jobj [(['a'], JVal.jobj [(['b'], JVal.jarr
    [JVal.jnum 1 0, JVal.jnum 2 0, JVal.jnum 3 0, JVal.jobj [(['c'], JVal.jnull)]])])]
def c6In : List Char := "\x7ba:1\x7d\x7bb:2\x7d".toList
def c6Out : List Char := "[\x7b\"a\":1\x7d,\x7b\"b\":2\x7d]".toList
def c6Val : JVal :=
  JVal.jarr [JVal.jobj [(['a'], JVal.jnum 1 0)], JVal.jobj [(['b'], JVal.jnum 2 0)]]
def c7In : List Char := "this is not json at all".toList
def c8In : List Char := "None foo bar baz".toList
def c8w : List Char := "\x7b\"a\"".toList
def c9In : List Char := "\x7b'a':1,'b':2\x7d".toList
def c9w : List Char := "\x7b'x':2\x7d".toList
def c10w : List Char := "\x7b\"a\":\x7d".toList

set_option maxRecDepth 1000000

/-- Applying an empty correction list changes nothing. -/
theorem applyCorrections_nil (t : List Char) : JSONMan.applyCorrections t [] = t := rfl

/-! ## Claims -/

/-- C1 (counterexample): the claim "for every valid JSON text `t`,
`fix(t).fixes` is empty and the repaired text parses to the same value" fails
at the valid JSON text `[[1]]`: the duplicate-delimiter pass rewrites it to
`[1]`, so the fixes list is nonempty and the repaired text parses to a
different value. -/
theorem C1_counterexample :
    parseOk c1In = true ∧ (JSONMan.fix c1In).fixes ≠ [] ∧
    (JSONMan.fix c1In).data = some c1Out ∧ strictParse c1Out ≠ strictParse c1In := by
  refine ⟨by decide, by decide, by decide, ?_⟩
  rw [show strictParse c1Out = some (JVal.jarr [JVal.jnum 1 0]) from rfl,
      show strictParse c1In = some (JVal.jarr [JVal.jarr [JVal.jnum 1 0]]) from rfl]
  simp

/-- C1 (amended): for a valid JSON text on which every normalization pass is a
no-op (the pipeline returns the text unchanged with no fix reports) and which
carries no surrounding whitespace, `fix` succeeds with an empty fixes list and
returns the text itself as the repaired text — which therefore strict-parses
to the same value. -/
theorem C1_theorem (t : List Char) (h1 : parseOk t = true)
    (h2 : JSONMan.runPasses t = (t, [])) (h3 : jsTrim t = t) :
    JSONMan.fix t = { success := true, data := some t, fixes := [], error := none } := by
  unfold JSONMan.fix JSONMan.fixBody
  rw [h2]
  simp [h3, h1]

/-- C1 (witness): the valid JSON text `{"a":1}` is untouched by every pass,
and `fix` returns it unchanged with no fixes. -/
theorem C1_witness :
    JSONMan.fix c1w = { success := true, data := some c1w, fixes := [], error := none } :=
  C1_theorem c1w (by decide) (by decide) (by decide)

/-- C2 (counterexample): the claim "no pass changes the content between a
string literal's delimiting quotes" fails: on the valid input `{"a":"None"}`
(whose strict parse shows `None` is string content), the literal-substitution
pass rewrites the content to `null`. -/
theorem C2_counterexample :
    strictParse c2In = some (JVal.jobj [(['a'], JVal.jstr JSONMan.noneChars)]) ∧
    (JSONMan.convertLiterals c2In).1 = c2Out ∧
    strictParse c2Out = some (JVal.jobj [(['a'], JVal.jstr JSONMan.nullChars)]) ∧
    c2Out ≠ c2In :=
  ⟨rfl, by decide, rfl, by decide⟩

/-- C2 (amended): only the scanning phases are string-aware.  The
bracket-balancing pass tracks string boundaries (with escape handling) and
leaves any text unchanged whose scans report nothing structural to do — even
when brackets occur inside string literals; the regex-substitution passes
(literal substitution, hex conversion, duplicate-delimiter collapse, comma
insertion) operate on the raw text and can rewrite string contents. -/
theorem C2_theorem (t : List Char)
    (h1 : t.getLast? ≠ some ':') (h2 : JSONMan.danglingAssignMatch t = false)
    (h3 : JSONMan.bbScanCorrections t 0 [] false false = [])
    (h4 : JSONMan.commaWsEnd t = false) (h5 : t.getLast? ≠ some ',')
    (h6 : JSONMan.bbOpenStack t [] false false = []) :
    JSONMan.balanceBrackets t = (t, none) := by
  unfold JSONMan.balanceBrackets
  simp [h1, h2, h3, h4, h5, h6, applyCorrections_nil]

/-- C2 (witness): the text `"ab[{"` — a string literal containing `[` and `{`
— triggers none of the bracket-balancing scans: the brackets inside the
string literal are not treated as structural, so no closers are appended. -/
theorem C2_witness : JSONMan.balanceBrackets c2w = (c2w, none) :=
  C2_theorem c2w (by decide) (by decide) (by decide) (by decide) (by decide) (by decide)

/-- C3: `fix` is total and never propagates an exception: for every input it
returns either a success result carrying repaired data and no error, or a
structured failure carrying an error and no data (the `finalFixAttempt` throw
is converted by the surrounding catch into the latter). -/
theorem C3_theorem (t : List Char) :
    ((JSONMan.fix t).success = true ∧ (JSONMan.fix t).error = none ∧
      ((JSONMan.fix t).data).isSome = true) ∨
    ((JSONMan.fix t).success = false ∧ (JSONMan.fix t).data = none ∧
      ((JSONMan.fix t).error).isSome = true) := by
  cases he : JSONMan.fixBody t with
  | error e =>
    have hf : JSONMan.fix t = ⟨false, none, [], some ⟨"Failed to fix JSON"⟩⟩ := by
      unfold JSONMan.fix
      rw [he]
    rw [hf]
    right
    exact ⟨rfl, rfl, rfl⟩
  | ok r =>
    have hf : JSONMan.fix t = r := by
      unfold JSONMan.fix
      rw [he]
    rw [hf]
    unfold JSONMan.fixBody at he
    repeat' split at he
    all_goals (first | (injection he with h2; subst h2; simp_all) | injection he)

/-- C4 (counterexample): the claim "re-running the pipeline on repaired output
produces no further fix records" fails at the valid input `{"a":{"b":1}}`:
`fix` succeeds returning the same text, yet the pipeline run on that output
produces fix records (duplicate-`}}`-collapse followed by re-balancing). -/
theorem C4_counterexample :
    (JSONMan.fix c4t).success = true ∧ (JSONMan.fix c4t).data = some c4t ∧
    (JSONMan.runPasses c4t).2 ≠ [] := by
  refine ⟨by decide, by decide, by decide⟩

/-- C4 (amended): idempotence holds exactly for texts on which every pass is
individually a no-op: if each of the sixteen passes maps `s` to itself with no
fix report, the whole pipeline produces no further fix records. -/
theorem C4_theorem (s : List Char)
    (h1 : JSONMan.removeBom s = (s, none)) (h2 : JSONMan.removeComments s = (s, none))
    (h3 : JSONMan.convertLiterals s = (s, none)) (h4 : JSONMan.convertHexNumbers s = (s, none))
    (h5 : JSONMan.fixDuplicateDelimiters s = (s, none)) (h6 : JSONMan.fixSingleQuotes s = (s, none))
    (h7 : JSONMan.fixUnescapedQuotes s = (s, none)) (h8 : JSONMan.fixEscapeSequences s = (s, none))
    (h9 : JSONMan.quoteUnquotedKeys s = (s, none)) (h10 : JSONMan.fixMissingCommas s = (s, none))
    (h11 : JSONMan.fixDoubleCommas s = (s, none)) (h12 : JSONMan.fixTrailingCommas s = (s, none))
    (h13 : JSONMan.balanceBrackets s = (s, none)) (h14 : JSONMan.handleMultipleRoots s = (s, none))
    (h15 : JSONMan.removeDanglingArtifacts s = (s, none))
    (h16 : JSONMan.unescapeStringifiedJSON s = (s, none)) :
    JSONMan.runPasses s = (s, []) := by
  unfold JSONMan.runPasses
  rw [h1]
  simp only [h2, h3, h4, h5, h6, h7, h8, h9, h10, h11, h12, h13, h14, h15, h16]
  simp [List.filterMap]

/-- C4 (witness): every pass is a no-op on `[1,2]`, and the pipeline produces
no fix records on it. -/
theorem C4_witness : JSONMan.runPasses c4w = (c4w, []) :=
  C4_theorem c4w (by decide) (by decide) (by decide) (by decide) (by decide) (by decide)
    (by decide) (by decide) (by decide) (by decide) (by decide) (by decide) (by decide)
    (by decide) (by decide) (by decide)

/-- C5: `fix('{a:{b:[1,2,3,{c:')` succeeds; a `null` literal is appended after
the dangling `{c:` assignment and the closers `}]}}` of the still-open frames
follow in LIFO order, so the repaired text strict-parses to
`{a:{b:[1,2,3,{c:null}]}}`. -/
theorem C5_theorem :
    (JSONMan.fix c5In).success = true ∧ (JSONMan.fix c5In).data = some c5Out ∧
    strictParse c5Out = some c5Val :=
  ⟨by decide, by decide, rfl⟩

/-- C6: `fix('{a:1}{b:2}')` succeeds and the two complete top-level objects
are wrapped into one JSON array, so the repaired text strict-parses to
`[{a:1},{b:2}]`. -/
theorem C6_theorem :
    (JSONMan.fix c6In).success = true ∧ (JSONMan.fix c6In).data = some c6Out ∧
    strictParse c6Out = some c6Val :=
  ⟨by decide, by decide, rfl⟩

/-- C7: `fix('this is not json at all')` fails: multi-word prose with no JSON
punctuation makes `finalFixAttempt` throw, the engine catches it, and the
outcome is a structured failure with no fabricated data. -/
theorem C7_theorem :
    (JSONMan.fix c7In).success = false ∧ (JSONMan.fix c7In).data = none ∧
    (JSONMan.fix c7In).error = some { message := "Failed to fix JSON" } :=
  ⟨by decide, by decide, by decide⟩

/-- C8 (counterexample): the claim "a terminal failure carries the fix records
accumulated by the passes and the last strict-parse error" fails at
`None foo bar baz`: the literal-substitution pass accumulates a fix record,
but the final heuristic throws, and the catch path returns an empty fixes
list with the generic catch error. -/
theorem C8_counterexample :
    (JSONMan.fix c8In).success = false ∧ (JSONMan.fix c8In).fixes = [] ∧
    (JSONMan.runPasses c8In).2 ≠ [] ∧
    (JSONMan.fix c8In).error = some { message := "Failed to fix JSON" } :=
  ⟨by decide, by decide, by decide, by decide⟩

/-- C8 (amended): a terminal failure has `success = false` and carries one of
two constant errors, never the last strict-parse error: on the non-throwing
path the accumulated fix records are kept with the message "Unable to fix
JSON after all attempts"; when the final heuristic throws, the fixes are
discarded and the message is "Failed to fix JSON". -/
theorem C8_theorem (t : List Char) (h : (JSONMan.fix t).success = false) :
    ((JSONMan.fix t).fixes = (JSONMan.runPasses t).2 ∧
      (JSONMan.fix t).error = some { message := "Unable to fix JSON after all attempts" }) ∨
    ((JSONMan.fix t).fixes = [] ∧
      (JSONMan.fix t).error = some { message := "Failed to fix JSON" }) := by
  cases he : JSONMan.fixBody t with
  | error e =>
    have hf : JSONMan.fix t = ⟨false, none, [], some ⟨"Failed to fix JSON"⟩⟩ := by
      unfold JSONMan.fix
      rw [he]
    rw [hf]
    right
    exact ⟨rfl, rfl⟩
  | ok r =>
    have hf : JSONMan.fix t = r := by
      unfold JSONMan.fix
      rw [he]
    rw [hf] at h ⊢
    unfold JSONMan.fixBody at he
    repeat' split at he
    all_goals (first | (injection he with h2; subst h2; simp_all) | injection he)

/-- C8 (witness): `{"a"` reaches the non-throwing failure path: the fixes
accumulated by the passes are carried and the error is the constant
"Unable to fix JSON after all attempts". -/
theorem C8_witness :
    ((JSONMan.fix c8w).fixes = (JSONMan.runPasses c8w).2 ∧
      (JSONMan.fix c8w).error = some { message := "Unable to fix JSON after all attempts" }) ∨
    ((JSONMan.fix c8w).fixes = [] ∧
      (JSONMan.fix c8w).error = some { message := "Failed to fix JSON" }) :=
  C8_theorem c8w (by decide)

/-- C9 (counterexample): the claim "diagnose emits at most one finding per
pattern type, aggregating occurrences" fails at `{'a':1,'b':2}`: strict parse
fails and diagnose returns four identical quote findings, one per single
quote character. -/
theorem C9_counterexample :
    parseOk c9In = false ∧
    (Parser.diagnose c9In).errors =
      [Parser.quoteErr, Parser.quoteErr, Parser.quoteErr, Parser.quoteErr] :=
  ⟨by decide, by decide⟩

/-- C9 (amended): on a failing input, diagnose emits one finding per
occurrence of each catalogue pattern — the number of findings is the sum of
the match counts of the four patterns; there is no aggregation and no
occurrence count. -/
theorem C9_theorem (t : List Char) (h : parseOk t = false) :
    (Parser.diagnose t).errors.length =
      Parser.quoteCount t + Parser.trailingCommaCount t +
      Parser.unquotedKeyCount t + Parser.undefValueCount t := by
  unfold Parser.diagnose Parser.diagErrors
  simp [h]
  omega

/-- C9 (witness): `{'x':2}` fails strict parse and gets exactly one finding
per pattern occurrence (two single quotes, no other matches). -/
theorem C9_witness :
    (Parser.diagnose c9w).errors.length =
      Parser.quoteCount c9w + Parser.trailingCommaCount c9w +
      Parser.unquotedKeyCount c9w + Parser.undefValueCount c9w :=
  C9_theorem c9w (by decide)

/-- C10: diagnose can return `isValid = false` with an empty findings list:
for every input that fails strict parse and matches none of the four
catalogued patterns, the result is exactly `{ isValid := false, errors := [] }`. -/
theorem C10_theorem (t : List Char) (h : parseOk t = false)
    (h1 : Parser.quoteCount t = 0) (h2 : Parser.trailingCommaCount t = 0)
    (h3 : Parser.unquotedKeyCount t = 0) (h4 : Parser.undefValueCount t = 0) :
    Parser.diagnose t = { isValid := false, errors := [] } := by
  unfold Parser.diagnose Parser.diagErrors
  simp [h, h1, h2, h3, h4]

/-- C10 (witness): `{"a":}` fails strict parse, matches no catalogue pattern,
and diagnose returns `isValid = false` with no findings. -/
theorem C10_witness : Parser.diagnose c10w = { isValid := false, errors := [] } :=
  C10_theorem c10w (by decide) (by decide) (by decide) (by decide) (by decide)

end Jsonman
